import Mathlib

set_option maxRecDepth 100000

/-!
Verification of `game/fix_index.py`, a one-shot marker-based line relocator.

The script reads an HTML file as a list of lines, locates the first line
containing each of four literal marker substrings, aborts (exit 1, no write)
if any marker is missing, and otherwise reassembles the document as
`lines[:ps] ++ header ++ lines[os:oe] ++ lines[pe:os] ++ lines[oe:]`
before writing it back.

The embedding below translates the script's top-level code into pure Lean
functions over `List String` (one string per line, trailing newline kept,
as Python's `readlines` produces).
-/

namespace FixIndex

/-- Python substring membership `m in l`, on the character lists of the
two strings: true iff `m` is a prefix of some suffix of `l`. -/
def subCheck (m : List Char) : List Char → Bool
  | [] => m.isEmpty
  | c :: rest => m.isPrefixOf (c :: rest) || subCheck m rest

/-- Models Python `marker in line` (substring containment test). -/
def containsMarker (m line : String) : Bool :=
  subCheck m.data line.data

/-- Marker literal from line 9 of the source. -/
def placeholder_start_marker : String :=
  "    <!-- Loading Screen (New) -->"

/-- Marker literal from line 10 of the source. -/
def placeholder_end_marker : String :=
  "    <!-- WRAPPER FOR CRT ANIMATION - INITIALLY HIDDEN (Screen Off) -->"

/-- Marker literal from line 11 of the source. -/
def orphaned_start_marker : String :=
  "            <!-- Top Left Info -->"

/-- Marker literal from line 12 of the source. -/
def orphaned_end_marker : String :=
  "        <!-- Gameplay Screen (Updated with User\x27s HUD) -->"

/-- One iteration of the marker-scan loop (source lines 20-28): each of the
four indices is set to the current position `i` when it is still `-1` and
its marker occurs in the current line. -/
def scanStep (i : Nat) (line : String) (st : Int × Int × Int × Int) :
    Int × Int × Int × Int :=
  ( (if st.1 == -1 && containsMarker placeholder_start_marker line
       then (i : Int) else st.1),
    (if st.2.1 == -1 && containsMarker placeholder_end_marker line
       then (i : Int) else st.2.1),
    (if st.2.2.1 == -1 && containsMarker orphaned_start_marker line
       then (i : Int) else st.2.2.1),
    (if st.2.2.2 == -1 && containsMarker orphaned_end_marker line
       then (i : Int) else st.2.2.2) )

/-- The scan loop over the enumerated lines, carrying the four indices. -/
def scanAux (i : Nat) (st : Int × Int × Int × Int) :
    List String → Int × Int × Int × Int
  | [] => st
  | line :: rest => scanAux (i + 1) (scanStep i line st) rest

/-- Models source lines 14-28: all four indices start at `-1` and the loop
runs over the whole document with indices starting at 0. -/
def scanMarkers (lines : List String) : Int × Int × Int × Int :=
  scanAux 0 (-1, -1, -1, -1) lines

/-- Header block inserted by the script (source lines 40-47), six literal
lines, each with its trailing newline. -/
def header : List String :=
  [ "    <!-- Loading Screen (New) -->\n",
    "    <div id=\"loadingScreen\"\n",
    "        class=\"screen active absolute inset-0 z-[60] flex flex-col items-center justify-center bg-background-light dark:bg-background-dark text-black dark:text-white font-mono overflow-hidden transition-colors duration-500\">\n",
    "        <!-- Background elements -->\n",
    "        <!-- Background elements (Moved to global) -->\n",
    "\n" ]

/-- Python slice `lines[a:b]` for non-negative indices: start inclusive,
end exclusive, empty when `b ≤ a`, clamped at the end of the list. Used by
the script once, to extract `lines[orphaned_start:orphaned_end]`
(source line 37). -/
def regionExtract (lines : List String) (a b : Nat) : List String :=
  (lines.drop a).take (b - a)

/-- Models source lines 30-60: scan for the markers, return `none` (abort)
when any index is still `-1`, otherwise build the new line sequence
`part1 ++ header ++ orphaned_content ++ part2 ++ part3`. -/
def fixIndex (lines : List String) : Option (List String) :=
  match scanMarkers lines with
  | (ps, pe, os, oe) =>
    if ps == -1 || pe == -1 || os == -1 || oe == -1 then
      none
    else
      let orphaned_content := regionExtract lines os.toNat oe.toNat
      let part1 := lines.take ps.toNat
      let part2 := regionExtract lines pe.toNat os.toNat
      let part3 := lines.drop oe.toNat
      some (part1 ++ header ++ orphaned_content ++ part2 ++ part3)

/-- Whole-program observable behaviour: final file content and exit code.
On the abort path (source lines 32-34) nothing is written and the process
exits with status 1; otherwise the new lines are written back
(source lines 67-68) and the process exits with status 0. -/
def runProgram (content : List String) : List String × Nat :=
  match fixIndex content with
  | none => (content, 1)
  | some out => (out, 0)

/-- Specification-side first-match search, starting the numbering at `i`:
returns the index of the first element containing `m`, or `-1`. -/
def findFrom (m : String) : Nat → List String → Int
  | _, [] => -1
  | i, line :: rest =>
      if containsMarker m line then (i : Int) else findFrom m (i + 1) rest

/-- Index of the first line of `lines` containing `m`, or `-1`. -/
def firstIdx (lines : List String) (m : String) : Int :=
  findFrom m 0 lines

/-- Twenty-line test fixture realising the spec's concrete scenario: the
four markers first match at indices 2, 5, 10 and 14. -/
def fixture : List String :=
  [ "L0\n", "L1\n",
    placeholder_start_marker ++ "\n",
    "L3\n", "L4\n",
    placeholder_end_marker ++ "\n",
    "L6\n", "L7\n", "L8\n", "L9\n",
    orphaned_start_marker ++ "\n",
    "L11\n", "L12\n", "L13\n",
    orphaned_end_marker ++ "\n",
    "L15\n", "L16\n", "L17\n", "L18\n", "L19\n" ]

/-- Nine-line fixture whose markers all occur but out of order: the
orphaned block precedes the placeholder block
(`orphaned_start < placeholder_end`). -/
def fixtureOutOfOrder : List String :=
  [ "A\n",
    orphaned_start_marker ++ "\n",
    "B\n",
    orphaned_end_marker ++ "\n",
    "C\n",
    placeholder_start_marker ++ "\n",
    "D\n",
    placeholder_end_marker ++ "\n",
    "E\n" ]

/-! ### Scan-loop characterization -/

/-- One scan step followed by a residual search agrees with searching from
the current position: componentwise argument for `scanAux_eq`. -/
lemma scan_comp (m : String) (i : Nat) (a : Int) (line : String)
    (rest : List String) :
    (if (if a == -1 && containsMarker m line then (i : Int) else a) = -1
       then findFrom m (i + 1) rest
       else if a == -1 && containsMarker m line then (i : Int) else a)
    = if a = -1 then findFrom m i (line :: rest) else a := by
  by_cases h : a = -1
  · by_cases hc : containsMarker m line
    · have hi : ¬((i : Int) = -1) := by omega
      simp [h, hc, hi, findFrom]
    · simp [h, hc, findFrom]
  · have hb : (a == -1) = false := by simp [h]
    simp [hb, h]

/-- The scan loop computes, for each component, the first matching index at
or after the starting position (when the component is still `-1`). -/
lemma scanAux_eq (ls : List String) : ∀ (i : Nat) (a b c d : Int),
    scanAux i (a, b, c, d) ls =
      ( if a = -1 then findFrom placeholder_start_marker i ls else a,
        if b = -1 then findFrom placeholder_end_marker i ls else b,
        if c = -1 then findFrom orphaned_start_marker i ls else c,
        if d = -1 then findFrom orphaned_end_marker i ls else d ) := by
  induction ls with
  | nil =>
    intro i a b c d
    simp only [scanAux, findFrom]
    refine Prod.ext ?_ (Prod.ext ?_ (Prod.ext ?_ ?_)) <;>
      · simp only []
        split <;> simp_all
  | cons line rest ih =>
    intro i a b c d
    show scanAux (i + 1) (scanStep i line (a, b, c, d)) rest = _
    rw [scanStep, ih]
    refine Prod.ext ?_ (Prod.ext ?_ (Prod.ext ?_ ?_)) <;>
      simp only [] <;> exact scan_comp _ _ _ _ _

/-- The four indices the program computes are exactly the four first-match
indices. -/
lemma scanMarkers_eq_firstIdx (lines : List String) :
    scanMarkers lines =
      ( firstIdx lines placeholder_start_marker,
        firstIdx lines placeholder_end_marker,
        firstIdx lines orphaned_start_marker,
        firstIdx lines orphaned_end_marker ) := by
  simp [scanMarkers, scanAux_eq, firstIdx]

/-! ### Properties of the first-match search -/

/-- The search yields `-1` exactly when no line contains the marker. -/
lemma findFrom_eq_neg_one_iff (m : String) (ls : List String) : ∀ i : Nat,
    findFrom m i ls = -1 ↔ ∀ l ∈ ls, containsMarker m l = false := by
  induction ls with
  | nil => intro i; simp [findFrom]
  | cons line rest ih =>
    intro i
    by_cases hc : containsMarker m line
    · have hi : ¬((i : Int) = -1) := by omega
      simp [findFrom, hc, hi]
    · simp only [findFrom, hc, Bool.false_eq_true, if_false, ih, List.mem_cons]
      constructor
      · rintro h l (rfl | hl)
        · exact Bool.eq_false_iff.2 hc
        · exact h l hl
      · intro h l hl
        exact h l (Or.inr hl)

/-- The search never returns a value below its starting position (other
than the sentinel `-1`). -/
lemma findFrom_lower (m : String) (ls : List String) : ∀ i : Nat,
    findFrom m i ls = -1 ∨ (i : Int) ≤ findFrom m i ls := by
  induction ls with
  | nil => intro i; exact Or.inl rfl
  | cons line rest ih =>
    intro i
    by_cases hc : containsMarker m line
    · simp [findFrom, hc]
    · rcases ih (i + 1) with h | h
      · exact Or.inl (by simp [findFrom, hc, h])
      · refine Or.inr ?_
        simp only [findFrom, hc, Bool.false_eq_true, if_false]
        omega

/-- When the search starting at `i` returns `i + k`, position `k` of the
list is the first position whose element contains the marker. -/
lemma findFrom_eq_natCast (m : String) (ls : List String) :
    ∀ (i k : Nat), findFrom m i ls = ((i + k : Nat) : Int) →
      k < ls.length ∧ containsMarker m (ls.getD k "") = true ∧
        ∀ j, j < k → containsMarker m (ls.getD j "") = false := by
  induction ls with
  | nil => intro i k h; simp [findFrom] at h; omega
  | cons line rest ih =>
    intro i k h
    by_cases hc : containsMarker m line
    · simp only [findFrom, hc, if_true, Int.natCast_inj] at h
      have hk : k = 0 := by omega
      subst hk
      exact ⟨by simp, by simpa using hc, fun j hj => absurd hj (by omega)⟩
    · simp only [findFrom, hc, Bool.false_eq_true, if_false] at h
      have hk : 1 ≤ k := by
        rcases findFrom_lower m rest (i + 1) with h0 | h0
        · rw [h0] at h; omega
        · rw [h] at h0; omega
      obtain ⟨k', rfl⟩ : ∃ k', k = k' + 1 := ⟨k - 1, by omega⟩
      have h' : findFrom m (i + 1) rest = (((i + 1) + k' : Nat) : Int) := by
        rw [h]; congr 1; omega
      obtain ⟨hlen, hat, hbefore⟩ := ih (i + 1) k' h'
      refine ⟨by simp; omega, by simpa [List.getD_cons_succ] using hat, ?_⟩
      intro j hj
      rcases Nat.eq_zero_or_pos j with rfl | hj0
      · simpa using Bool.eq_false_iff.2 hc
      · obtain ⟨j', rfl⟩ : ∃ j', j = j' + 1 := ⟨j - 1, by omega⟩
        simpa [List.getD_cons_succ] using hbefore j' (by omega)

/-! ### Derived facts about a successful scan -/

/-- Unpacks a successful scan into the four first-match facts: each index
is in range and its line contains the corresponding marker. -/
lemma scan_found (lines : List String) (ps pe os oe : Nat)
    (hscan : scanMarkers lines = ((ps : Int), (pe : Int), (os : Int), (oe : Int))) :
    (ps < lines.length ∧
      containsMarker placeholder_start_marker (lines.getD ps "") = true) ∧
    (pe < lines.length ∧
      containsMarker placeholder_end_marker (lines.getD pe "") = true) ∧
    (os < lines.length ∧
      containsMarker orphaned_start_marker (lines.getD os "") = true) ∧
    (oe < lines.length ∧
      containsMarker orphaned_end_marker (lines.getD oe "") = true) := by
  rw [scanMarkers_eq_firstIdx] at hscan
  simp only [Prod.mk.injEq] at hscan
  obtain ⟨h1, h2, h3, h4⟩ := hscan
  have H : ∀ (m : String) (k : Nat), firstIdx lines m = (k : Int) →
      k < lines.length ∧ containsMarker m (lines.getD k "") = true := by
    intro m k h
    have := findFrom_eq_natCast m lines 0 k (by simpa using h)
    exact ⟨this.1, this.2.1⟩
  exact ⟨H _ _ h1, H _ _ h2, H _ _ h3, H _ _ h4⟩

/-- On a successful scan the program takes the non-abort branch and builds
exactly the reassembled sequence of source line 60. -/
lemma fixIndex_formula (lines : List String) (ps pe os oe : Nat)
    (hscan : scanMarkers lines = ((ps : Int), (pe : Int), (os : Int), (oe : Int))) :
    fixIndex lines = some (lines.take ps ++ header ++ regionExtract lines os oe ++
      regionExtract lines pe os ++ lines.drop oe) := by
  have hps : (((ps : Int)) == -1) = false := by simp only [beq_eq_false_iff_ne]; omega
  have hpe : (((pe : Int)) == -1) = false := by simp only [beq_eq_false_iff_ne]; omega
  have hos : (((os : Int)) == -1) = false := by simp only [beq_eq_false_iff_ne]; omega
  have hoe : (((oe : Int)) == -1) = false := by simp only [beq_eq_false_iff_ne]; omega
  simp [fixIndex, hscan, hps, hpe, hos, hoe]

/-- The program aborts exactly when some marker has no first-match index. -/
lemma fixIndex_eq_none_iff (lines : List String) :
    fixIndex lines = none ↔
      firstIdx lines placeholder_start_marker = -1 ∨
      firstIdx lines placeholder_end_marker = -1 ∨
      firstIdx lines orphaned_start_marker = -1 ∨
      firstIdx lines orphaned_end_marker = -1 := by
  simp only [fixIndex, scanMarkers_eq_firstIdx]
  split_ifs with h
  · simp only [Bool.or_eq_true, beq_iff_eq] at h
    exact iff_of_true rfl (by tauto)
  · simp only [Bool.or_eq_true, beq_iff_eq] at h
    push_neg at h
    exact iff_of_false (by simp) (by tauto)

/-! ### Membership helpers for slices -/

/-- An in-range element is a member of any non-trivial slice starting at
its position. -/
lemma getD_mem_drop_take (l : List String) (a b : Nat)
    (ha : a < l.length) (hb : 0 < b) :
    l.getD a "" ∈ (l.drop a).take b := by
  have hdrop : l.drop a = l.getD a "" :: l.drop (a + 1) := by
    simp only [List.getD_eq_getElem?_getD, List.getElem?_eq_getElem ha,
      Option.getD_some]
    exact List.drop_eq_getElem_cons ha
  rw [hdrop]
  cases b with
  | zero => omega
  | succ b => simp

/-- An in-range element is a member of the suffix starting at its
position. -/
lemma getD_mem_drop (l : List String) (a : Nat) (ha : a < l.length) :
    l.getD a "" ∈ l.drop a := by
  have hdrop : l.drop a = l.getD a "" :: l.drop (a + 1) := by
    simp only [List.getD_eq_getElem?_getD, List.getElem?_eq_getElem ha,
      Option.getD_some]
    exact List.drop_eq_getElem_cons ha
  rw [hdrop]
  simp

/-- Every marker still occurs in some line of a successfully reassembled
output: the header reintroduces the placeholder-start marker, and the
lines first matching the other three markers are all retained. -/
lemma markers_in_output (lines : List String) (ps pe os oe : Nat)
    (hscan : scanMarkers lines = ((ps : Int), (pe : Int), (os : Int), (oe : Int)))
    (_h1 : ps < pe) (h2 : pe ≤ os) (h3 : os < oe)
    (out : List String) (hout : fixIndex lines = some out) :
    (∃ l ∈ out, containsMarker placeholder_start_marker l = true) ∧
    (∃ l ∈ out, containsMarker placeholder_end_marker l = true) ∧
    (∃ l ∈ out, containsMarker orphaned_start_marker l = true) ∧
    (∃ l ∈ out, containsMarker orphaned_end_marker l = true) := by
  obtain ⟨⟨hps, hm1⟩, ⟨hpe, hm2⟩, ⟨hos, hm3⟩, ⟨hoe, hm4⟩⟩ :=
    scan_found lines ps pe os oe hscan
  rw [fixIndex_formula lines ps pe os oe hscan] at hout
  obtain rfl := (Option.some.inj hout).symm
  refine ⟨?_, ?_, ?_, ?_⟩
  · refine ⟨"    <!-- Loading Screen (New) -->\n", ?_, by decide⟩
    have hin : "    <!-- Loading Screen (New) -->\n" ∈ header := by
      simp [header]
    simp only [List.mem_append]
    tauto
  · refine ⟨lines.getD pe "", ?_, hm2⟩
    by_cases hcase : pe < os
    · have hin : lines.getD pe "" ∈ regionExtract lines pe os :=
        getD_mem_drop_take lines pe (os - pe) hpe (by omega)
      simp only [List.mem_append]
      tauto
    · have hpeos : pe = os := by omega
      have hin : lines.getD pe "" ∈ regionExtract lines os oe := by
        rw [hpeos]
        exact getD_mem_drop_take lines os (oe - os) hos (by omega)
      simp only [List.mem_append]
      tauto
  · refine ⟨lines.getD os "", ?_, hm3⟩
    have hin : lines.getD os "" ∈ regionExtract lines os oe :=
      getD_mem_drop_take lines os (oe - os) hos (by omega)
    simp only [List.mem_append]
    tauto
  · refine ⟨lines.getD oe "", ?_, hm4⟩
    have hin : lines.getD oe "" ∈ lines.drop oe := getD_mem_drop lines oe hoe
    simp only [List.mem_append]
    tauto

/-! ### Claim theorems -/

/-- C1: for every document in which all four markers are found with
first-match indices `ps < pe ≤ os < oe`, the output line sequence equals
`lines[0:ps] ++ header ++ lines[os:oe] ++ lines[pe:os] ++ lines[oe:]`. -/
theorem reassembly_concatenation (lines : List String) (ps pe os oe : Nat)
    (hscan : scanMarkers lines = ((ps : Int), (pe : Int), (os : Int), (oe : Int)))
    (_h1 : ps < pe) (_h2 : pe ≤ os) (_h3 : os < oe) :
    fixIndex lines = some (lines.take ps ++ header ++ regionExtract lines os oe ++
      regionExtract lines pe os ++ lines.drop oe) :=
  fixIndex_formula lines ps pe os oe hscan

/-- Witness for C1: the 20-line fixture with marker indices 2, 5, 10, 14
reassembles to `lines[0:2] ++ header ++ lines[10:14] ++ lines[5:10] ++
lines[14:20]`. -/
theorem reassembly_concatenation_witness :
    fixIndex fixture = some (fixture.take 2 ++ header ++ regionExtract fixture 10 14 ++
      regionExtract fixture 5 10 ++ fixture.drop 14) :=
  reassembly_concatenation fixture 2 5 10 14 (by decide) (by decide) (by decide)
    (by decide)

/-- C2: when any one of the four markers matches no line, the program
leaves the file content unchanged and exits with status 1 (no write is
performed on the abort path). -/
theorem abort_on_missing_marker (lines : List String)
    (h : (∀ l ∈ lines, containsMarker placeholder_start_marker l = false) ∨
         (∀ l ∈ lines, containsMarker placeholder_end_marker l = false) ∨
         (∀ l ∈ lines, containsMarker orphaned_start_marker l = false) ∨
         (∀ l ∈ lines, containsMarker orphaned_end_marker l = false)) :
    runProgram lines = (lines, 1) := by
  have hnone : fixIndex lines = none := by
    rw [fixIndex_eq_none_iff]
    rcases h with h | h | h | h
    · exact Or.inl ((findFrom_eq_neg_one_iff _ lines 0).2 h)
    · exact Or.inr (Or.inl ((findFrom_eq_neg_one_iff _ lines 0).2 h))
    · exact Or.inr (Or.inr (Or.inl ((findFrom_eq_neg_one_iff _ lines 0).2 h)))
    · exact Or.inr (Or.inr (Or.inr ((findFrom_eq_neg_one_iff _ lines 0).2 h)))
  simp [runProgram, hnone]

/-- Witness for C2: a one-line document without the placeholder-start
marker is returned unchanged with exit status 1. -/
theorem abort_on_missing_marker_witness :
    runProgram ["hello\n"] = (["hello\n"], 1) :=
  abort_on_missing_marker ["hello\n"] (Or.inl (by decide))

/-- C3 counterexample: on the 20-line fixture the marker indices are
2 < 5 ≤ 10 < 14, yet the output has 23 lines, not 20 + 6 = 26: the claim
that no lines are dropped fails, because the placeholder block
`lines[2:5]` is discarded. -/
theorem output_length_counterexample :
    scanMarkers fixture = (((2 : Nat) : Int), ((5 : Nat) : Int),
      ((10 : Nat) : Int), ((14 : Nat) : Int)) ∧
    (2 : Nat) < 5 ∧ (5 : Nat) ≤ 10 ∧ (10 : Nat) < 14 ∧
    (fixIndex fixture).map List.length ≠ some (fixture.length + 6) := by
  decide

/-- C3 amended: under marker indices `ps < pe ≤ os < oe` the output line
count equals `original_count + 6 - (pe - ps)`: the six header lines are
added but the placeholder block `lines[ps:pe]` is dropped. -/
theorem output_length_amended (lines : List String) (ps pe os oe : Nat)
    (hscan : scanMarkers lines = ((ps : Int), (pe : Int), (os : Int), (oe : Int)))
    (h1 : ps < pe) (h2 : pe ≤ os) (h3 : os < oe) :
    (fixIndex lines).map List.length = some (lines.length + 6 - (pe - ps)) := by
  obtain ⟨⟨hps, -⟩, ⟨hpe, -⟩, ⟨hos, -⟩, ⟨hoe, -⟩⟩ := scan_found lines ps pe os oe hscan
  rw [fixIndex_formula lines ps pe os oe hscan]
  simp only [Option.map_some', Option.some.injEq, List.length_append,
    List.length_take, List.length_drop, regionExtract]
  have hh : header.length = 6 := by decide
  rw [hh]
  omega

/-- Witness for C3 amended: the fixture's 20 lines become
20 + 6 - (5 - 2) = 23 lines. -/
theorem output_length_amended_witness :
    (fixIndex fixture).map List.length = some (fixture.length + 6 - (5 - 2)) :=
  output_length_amended fixture 2 5 10 14 (by decide) (by decide) (by decide)
    (by decide)

/-- C4: the scan computes, for each of the four markers, the smallest
index of a line containing it as a substring, keeping `-1` when the
marker occurs in no line. -/
theorem first_match_semantics (lines : List String) :
    scanMarkers lines =
      ( firstIdx lines placeholder_start_marker,
        firstIdx lines placeholder_end_marker,
        firstIdx lines orphaned_start_marker,
        firstIdx lines orphaned_end_marker ) ∧
    ∀ m : String,
      (firstIdx lines m = -1 ↔ ∀ l ∈ lines, containsMarker m l = false) ∧
      ∀ k : Nat, firstIdx lines m = (k : Int) →
        k < lines.length ∧ containsMarker m (lines.getD k "") = true ∧
          ∀ j, j < k → containsMarker m (lines.getD j "") = false := by
  refine ⟨scanMarkers_eq_firstIdx lines,
    fun m => ⟨findFrom_eq_neg_one_iff m lines 0, ?_⟩⟩
  intro k h
  exact findFrom_eq_natCast m lines 0 k (by simpa using h)

/-- Witness for C4: on the fixture the placeholder-start marker first
matches at index 2, which is in range and whose line contains it. -/
theorem first_match_semantics_witness :
    2 < fixture.length ∧
    containsMarker placeholder_start_marker (fixture.getD 2 "") = true := by
  have h := ((first_match_semantics fixture).2 placeholder_start_marker).2 2
    (by decide)
  exact ⟨h.1, h.2.1⟩

/-- C5 counterexample: running the operation on the fixture's own output
does not abort — the claim that a second run always fails with
MarkerNotFound is false on the 20-line fixture. -/
theorem second_run_counterexample :
    scanMarkers fixture = (((2 : Nat) : Int), ((5 : Nat) : Int),
      ((10 : Nat) : Int), ((14 : Nat) : Int)) ∧
    (fixIndex fixture).bind fixIndex ≠ none := by
  decide

/-- C5 amended: after a successful first run all four markers still match
some output line, so a second run finds all markers, does not abort, and
proceeds to rewrite (exit status 0). -/
theorem second_run_not_abort (lines : List String) (ps pe os oe : Nat)
    (hscan : scanMarkers lines = ((ps : Int), (pe : Int), (os : Int), (oe : Int)))
    (h1 : ps < pe) (h2 : pe ≤ os) (h3 : os < oe)
    (out : List String) (hout : fixIndex lines = some out) :
    fixIndex out ≠ none ∧ (runProgram out).2 = 0 := by
  obtain ⟨hm1, hm2, hm3, hm4⟩ :=
    markers_in_output lines ps pe os oe hscan h1 h2 h3 out hout
  have key : ∀ m : String, (∃ l ∈ out, containsMarker m l = true) →
      firstIdx out m ≠ -1 := by
    rintro m ⟨l, hl, hml⟩ hcontra
    have := (findFrom_eq_neg_one_iff m out 0).1 hcontra l hl
    simp [hml] at this
  have hne : fixIndex out ≠ none := by
    rw [Ne, fixIndex_eq_none_iff]
    push_neg
    exact ⟨key _ hm1, key _ hm2, key _ hm3, key _ hm4⟩
  obtain ⟨out2, hout2⟩ := Option.ne_none_iff_exists'.1 hne
  exact ⟨hne, by simp [runProgram, hout2]⟩

/-- Witness for C5 amended: the second run on the fixture's concrete
output neither aborts nor exits non-zero. -/
theorem second_run_not_abort_witness :
    fixIndex (fixture.take 2 ++ header ++ regionExtract fixture 10 14 ++
      regionExtract fixture 5 10 ++ fixture.drop 14) ≠ none ∧
    (runProgram (fixture.take 2 ++ header ++ regionExtract fixture 10 14 ++
      regionExtract fixture 5 10 ++ fixture.drop 14)).2 = 0 :=
  second_run_not_abort fixture 2 5 10 14 (by decide) (by decide) (by decide)
    (by decide) _ (by decide)

/-- C6: the program never validates the relative order of the four
indices: whenever the scan finds all four markers — in any order,
including `orphaned_start < placeholder_end` — it does not abort and
writes the output produced by the same slice arithmetic, with exit
status 0. -/
theorem no_order_validation (lines : List String) (ps pe os oe : Nat)
    (hscan : scanMarkers lines = ((ps : Int), (pe : Int), (os : Int), (oe : Int))) :
    runProgram lines =
      (lines.take ps ++ header ++ regionExtract lines os oe ++
        regionExtract lines pe os ++ lines.drop oe, 0) := by
  simp [runProgram, fixIndex_formula lines ps pe os oe hscan]

/-- Witness for C6: on the out-of-order fixture (orphaned block before
the placeholder block, indices 5, 7, 1, 3) the program still rewrites
and exits 0. -/
theorem no_order_validation_witness :
    runProgram fixtureOutOfOrder =
      (fixtureOutOfOrder.take 5 ++ header ++ regionExtract fixtureOutOfOrder 1 3 ++
        regionExtract fixtureOutOfOrder 7 1 ++ fixtureOutOfOrder.drop 3, 0) :=
  no_order_validation fixtureOutOfOrder 5 7 1 3 (by decide)

/-- C7: the extracted orphaned region is exactly the sub-sequence
`lines[orphaned_start:orphaned_end]`, start inclusive and end exclusive:
it has length `oe - os` and its `k`-th line is line `os + k` of the
original. -/
theorem orphaned_region_extraction (lines : List String) (ps pe os oe : Nat)
    (hscan : scanMarkers lines = ((ps : Int), (pe : Int), (os : Int), (oe : Int)))
    (hord : os ≤ oe) :
    (regionExtract lines os oe).length = oe - os ∧
    ∀ k, k < oe - os →
      (regionExtract lines os oe).getD k "" = lines.getD (os + k) "" := by
  obtain ⟨-, -, ⟨hos, -⟩, ⟨hoe, -⟩⟩ := scan_found lines ps pe os oe hscan
  constructor
  · simp only [regionExtract, List.length_take, List.length_drop]
    omega
  · intro k hk
    simp only [List.getD_eq_getElem?_getD, regionExtract]
    rw [List.getElem?_take_of_lt hk, List.getElem?_drop]

/-- Witness for C7: on the fixture the orphaned region `lines[10:14]` has
length 4 and starts with line 10. -/
theorem orphaned_region_extraction_witness :
    (regionExtract fixture 10 14).length = 14 - 10 ∧
    (regionExtract fixture 10 14).getD 0 "" = fixture.getD (10 + 0) "" :=
  ⟨(orphaned_region_extraction fixture 2 5 10 14 (by decide) (by decide)).1,
   (orphaned_region_extraction fixture 2 5 10 14 (by decide) (by decide)).2 0
     (by decide)⟩

/-- C8: under marker indices `ps ≤ pe ≤ os ≤ oe` the output is a
permutation of the header plus the original minus its placeholder block
`lines[ps:pe]`; in particular the output line count is
`original_count + 6 - (pe - ps)`. -/
theorem placeholder_block_replaced (lines : List String) (ps pe os oe : Nat)
    (hscan : scanMarkers lines = ((ps : Int), (pe : Int), (os : Int), (oe : Int)))
    (h1 : ps ≤ pe) (h2 : pe ≤ os) (h3 : os ≤ oe) :
    ∀ out, fixIndex lines = some out →
      List.Perm out (header ++ (lines.take ps ++ lines.drop pe)) ∧
      out.length = lines.length + 6 - (pe - ps) := by
  intro out hout
  obtain ⟨⟨hps, -⟩, ⟨hpe, -⟩, ⟨hos, -⟩, ⟨hoe, -⟩⟩ := scan_found lines ps pe os oe hscan
  rw [fixIndex_formula lines ps pe os oe hscan] at hout
  obtain rfl := (Option.some.inj hout).symm
  have hBC : regionExtract lines os oe ++ lines.drop oe = lines.drop os := by
    have hdd : lines.drop oe = (lines.drop os).drop (oe - os) := by
      rw [List.drop_drop]
      congr 1
      omega
    rw [regionExtract, hdd, List.take_append_drop]
  have hABC : regionExtract lines pe os ++ lines.drop os = lines.drop pe := by
    have hdd : lines.drop os = (lines.drop pe).drop (os - pe) := by
      rw [List.drop_drop]
      congr 1
      omega
    rw [regionExtract, hdd, List.take_append_drop]
  have p1 : List.Perm
      (regionExtract lines os oe ++ (regionExtract lines pe os ++ lines.drop oe))
      (regionExtract lines pe os ++ (regionExtract lines os oe ++ lines.drop oe)) :=
    List.perm_append_comm_assoc _ _ _
  have p2 : List.Perm
      (lines.take ps ++ (header ++
        (regionExtract lines os oe ++ (regionExtract lines pe os ++ lines.drop oe))))
      (lines.take ps ++ (header ++
        (regionExtract lines pe os ++ (regionExtract lines os oe ++ lines.drop oe)))) :=
    List.Perm.append_left _ (List.Perm.append_left _ p1)
  rw [hBC, hABC] at p2
  have hperm : List.Perm
      (lines.take ps ++ header ++ regionExtract lines os oe ++
        regionExtract lines pe os ++ lines.drop oe)
      (header ++ (lines.take ps ++ lines.drop pe)) := by
    have goal2 := p2.trans (List.perm_append_comm_assoc _ _ _)
    simpa [List.append_assoc] using goal2
  refine ⟨hperm, ?_⟩
  rw [hperm.length_eq]
  simp only [List.length_append, List.length_take, List.length_drop]
  have hh : header.length = 6 := by decide
  rw [hh]
  omega

/-- Witness for C8: on the fixture the concrete output is a permutation
of header plus lines[0:2] plus lines[5:20], with 23 = 20 + 6 - 3 lines. -/
theorem placeholder_block_replaced_witness :
    List.Perm (fixture.take 2 ++ header ++ regionExtract fixture 10 14 ++
        regionExtract fixture 5 10 ++ fixture.drop 14)
      (header ++ (fixture.take 2 ++ fixture.drop 5)) ∧
    (fixture.take 2 ++ header ++ regionExtract fixture 10 14 ++
        regionExtract fixture 5 10 ++ fixture.drop 14).length =
      fixture.length + 6 - (5 - 2) :=
  placeholder_block_replaced fixture 2 5 10 14 (by decide) (by decide) (by decide)
    (by decide) _ (by decide)

/-- C9: after a successful run the first header line is the
placeholder-start marker text (plus its newline), and every one of the
four marker substrings still occurs in at least one output line. -/
theorem markers_still_present (lines : List String) (ps pe os oe : Nat)
    (hscan : scanMarkers lines = ((ps : Int), (pe : Int), (os : Int), (oe : Int)))
    (h1 : ps < pe) (h2 : pe ≤ os) (h3 : os < oe) :
    header.getD 0 "" = placeholder_start_marker ++ "\n" ∧
    ∀ out, fixIndex lines = some out →
      out.any (fun l => containsMarker placeholder_start_marker l) = true ∧
      out.any (fun l => containsMarker placeholder_end_marker l) = true ∧
      out.any (fun l => containsMarker orphaned_start_marker l) = true ∧
      out.any (fun l => containsMarker orphaned_end_marker l) = true := by
  refine ⟨by decide, fun out hout => ?_⟩
  obtain ⟨hm1, hm2, hm3, hm4⟩ :=
    markers_in_output lines ps pe os oe hscan h1 h2 h3 out hout
  simp only [List.any_eq_true]
  exact ⟨hm1, hm2, hm3, hm4⟩

/-- Witness for C9: on the fixture's concrete output each of the four
markers occurs in some line. -/
theorem markers_still_present_witness :
    header.getD 0 "" = placeholder_start_marker ++ "\n" ∧
    ((fixture.take 2 ++ header ++ regionExtract fixture 10 14 ++
        regionExtract fixture 5 10 ++ fixture.drop 14).any
      (fun l => containsMarker placeholder_start_marker l) = true ∧
     (fixture.take 2 ++ header ++ regionExtract fixture 10 14 ++
        regionExtract fixture 5 10 ++ fixture.drop 14).any
      (fun l => containsMarker placeholder_end_marker l) = true ∧
     (fixture.take 2 ++ header ++ regionExtract fixture 10 14 ++
        regionExtract fixture 5 10 ++ fixture.drop 14).any
      (fun l => containsMarker orphaned_start_marker l) = true ∧
     (fixture.take 2 ++ header ++ regionExtract fixture 10 14 ++
        regionExtract fixture 5 10 ++ fixture.drop 14).any
      (fun l => containsMarker orphaned_end_marker l) = true) :=
  ⟨(markers_still_present fixture 2 5 10 14 (by decide) (by decide) (by decide)
      (by decide)).1,
   (markers_still_present fixture 2 5 10 14 (by decide) (by decide) (by decide)
      (by decide)).2 _ (by decide)⟩

/-- C10: the transformation is a pure function of the input line
sequence: identical inputs produce the identical abort-or-write decision
and identical final file content and exit status. -/
theorem run_deterministic (a b : List String) (h : a = b) :
    fixIndex a = fixIndex b ∧ runProgram a = runProgram b := by
  subst h
  exact ⟨rfl, rfl⟩

/-- Witness for C10 at the fixture. -/
theorem run_deterministic_witness :
    fixIndex fixture = fixIndex fixture ∧
    runProgram fixture = runProgram fixture :=
  run_deterministic fixture fixture rfl

end FixIndex
